import Mathlib

/-!
Verification of the shop_prime_vue_client session/claims module
(`src/stores/auth.ts`) and the order-detail optimistic row-edit protocol
(`src/scripts/filter.ts`), shallowly embedded in Lean.

Modelling conventions:
* JavaScript numbers appearing in grid rows are `Option ℚ` (`JNum`): `some q`
  is a finite value, `none` stands for a non-finite value (NaN and ±∞ are
  collapsed, because on every reachable code path the embedded code observes
  non-finite numbers only through `Number.isFinite`, through comparisons that
  reject them together, or through `===` between values that are finite there).
* Fallible platform primitives (`atob`, `JSON.parse`) are `Option`-valued;
  the catch-blocks of the source become `Option` case analysis.
* `TextDecoder('utf-8', {fatal:false})` never throws; it is a total function
  `List Nat → String` carried in the environment `JsEnv` together with
  `JSON.parse`, so theorems quantify over every platform behaviour.
* Strings are Lean `String`s; the concrete inputs exercised are ASCII, where
  JS `.length`/`.slice` (UTF-16 units) and Lean (chars) agree.
-/

namespace ShopClient

/-- A JavaScript number restricted to the observations the embedded code
makes: `some q` is a finite value, `none` a non-finite one. -/
abbrev JNum := Option ℚ

/-! ### Executable JS string primitives

Lean's built-in `String.splitOn`, `String.startsWith`, … are opaque to kernel
reduction, so the JS string primitives the sources use are given directly as
char-list programs (for the ASCII data involved, JS UTF-16 semantics and
char-list semantics coincide). -/

/-- JS `s.split('.')` (single-character separator). -/
def splitOnDot : List Char → List (List Char)
  | [] => [[]]
  | c :: rest =>
      match splitOnDot rest with
      | g :: gs => if c = '.' then [] :: g :: gs else (c :: g) :: gs
      | [] => if c = '.' then [[], []] else [[c]]

/-- JS `s.split('.')` on strings. -/
def jsSplitDot (s : String) : List String :=
  (splitOnDot s.data).map String.mk

/-- Prefix test on char lists. -/
def listPrefix : List Char → List Char → Bool
  | [], _ => true
  | _ :: _, [] => false
  | a :: ps, b :: ss => a = b && listPrefix ps ss

/-- JS `s.startsWith(p)`. -/
def jsStartsWith (s p : String) : Bool :=
  listPrefix p.data s.data

/-- JS `s.endsWith(p)`. -/
def jsEndsWith (s p : String) : Bool :=
  listPrefix p.data.reverse s.data.reverse

/-- JS `s.slice(1)`. -/
def jsDropFirst (s : String) : String :=
  String.mk (s.data.drop 1)

/-- JS `s.length` (UTF-16 units; equal to the char count on the ASCII data
in scope). -/
def jsLength (s : String) : Nat :=
  s.data.length

/-- JS global single-character `replace`. -/
def jsReplaceChar (a b : Char) (s : String) : String :=
  String.mk (s.data.map (fun c => if c = a then b else c))

/-! ### Claim records (`ClaimRecord` of src/stores/auth.ts) -/

/-- A scalar claim value, per the store's
`type ClaimRecord = Record<string, string | number | undefined>` (plus `null`,
which `resolveClaim` explicitly tests for).  Claim ids found in tokens are
integral, so numeric claim values are modelled as `Int`. -/
inductive ClaimValue
  | vStr (s : String)
  | vNum (n : Int)
  | vNull
  deriving DecidableEq, Repr

/-- A decoded claims object: key/value pairs, first binding wins on lookup. -/
abbrev ClaimRecord := List (String × ClaimValue)

/-- The platform primitives `decodeToken` depends on: the lenient UTF-8
decoder (total) and `JSON.parse` followed by the `as ClaimRecord` cast
(`none` models a thrown `SyntaxError`). -/
structure JsEnv where
  utf8Decode : List Nat → String
  jsonParse : String → Option ClaimRecord

/-! ### `atob` (WHATWG forgiving-base64, returning the bytes that the
`charCodeAt` loop of `decodeBase64Url` extracts from the binary string) -/

/-- ASCII whitespace stripped by forgiving-base64. -/
def isB64Ws (c : Char) : Bool :=
  c = ' ' || c = '\t' || c = '\n' || c = '\x0c' || c = '\r'

/-- Position of a character in the standard base64 alphabet. -/
def b64Index (c : Char) : Option Nat :=
  if 'A' ≤ c ∧ c ≤ 'Z' then some (c.toNat - 65)
  else if 'a' ≤ c ∧ c ≤ 'z' then some (c.toNat - 97 + 26)
  else if '0' ≤ c ∧ c ≤ '9' then some (c.toNat - 48 + 52)
  else if c = '+' then some 62
  else if c = '/' then some 63
  else none

/-- Reassemble 6-bit groups into bytes; a trailing group of 2 (resp. 3)
characters yields 1 (resp. 2) bytes, leftover bits are discarded. -/
def b64DecodeVals : List Nat → List Nat
  | a :: b :: c :: d :: rest =>
      (a * 4 + b / 16) :: ((b % 16) * 16 + c / 4) :: ((c % 4) * 64 + d) ::
        b64DecodeVals rest
  | [a, b] => [a * 4 + b / 16]
  | [a, b, c] => [a * 4 + b / 16, (b % 16) * 16 + c / 4]
  | [_] => []
  | [] => []

/-- Remove one trailing `'='` if present. -/
def dropOnePad (l : List Char) : List Char :=
  if l.getLast? = some '=' then l.dropLast else l

/-- `globalThis.atob`: forgiving-base64 decode to bytes, `none` models the
thrown `InvalidCharacterError`. -/
def atobBytes (s : String) : Option (List Nat) :=
  let data := s.toList.filter (fun c => !isB64Ws c)
  let data := if data.length % 4 = 0 then dropOnePad (dropOnePad data) else data
  if data.length % 4 = 1 then none
  else (data.mapM b64Index).map b64DecodeVals

/-! ### `decodeBase64Url` / `decodeToken` (src/stores/auth.ts lines 83-132) -/

/-- `value.replace('-' g, '+').replace('_' g, '/')` (global char substitution). -/
def b64UrlToStd (value : String) : String :=
  jsReplaceChar '_' '/' (jsReplaceChar '-' '+' value)

/-- `normalized + '='.repeat((4 - (normalized.length % 4)) % 4)`. -/
def b64Pad (s : String) : String :=
  s ++ String.mk (List.replicate ((4 - jsLength s % 4) % 4) '=')

/-- `decodeBase64Url` on the browser path (`atob` + byte loop + lenient
`TextDecoder`); `none` models the exceptions that `decodeToken` catches. -/
def decodeBase64Url (env : JsEnv) (value : String) : Option String :=
  (atobBytes (b64Pad (b64UrlToStd value))).map env.utf8Decode

/-- `decodeToken`: split on `.`, require at least 2 segments, decode the
second segment, parse JSON; every failure yields `none` (the source's
`catch` returns `null`). -/
def decodeToken (env : JsEnv) (token : String) : Option ClaimRecord :=
  if token = "" then none
  else
    let segments := jsSplitDot token
    if segments.length < 2 then none
    else
      let payloadSegment := segments.getD 1 ""
      if payloadSegment = "" then none
      else
        match decodeBase64Url env payloadSegment with
        | none => none
        | some payload => env.jsonParse payload

/-! ### Claim resolution (src/stores/auth.ts lines 24-40, 134-168) -/

def ROLE_CLAIM_KEYS : List String :=
  ["role", "http://schemas.microsoft.com/ws/2008/06/identity/claims/role"]

def NAME_CLAIM_KEYS : List String :=
  ["displayName", "name",
   "http://schemas.xmlsoap.org/ws/2005/05/identity/claims/name",
   "unique_name", "sub"]

def EMAIL_CLAIM_KEYS : List String :=
  ["email",
   "http://schemas.xmlsoap.org/ws/2005/05/identity/claims/emailaddress",
   "http://schemas.xmlsoap.org/ws/2005/05/identity/claims/name"]

def ID_CLAIM_KEYS : List String := ["id"]

/-- JS `String(value)` on a scalar claim value. -/
def claimString : ClaimValue → String
  | ClaimValue.vStr s => s
  | ClaimValue.vNum n => toString n
  | ClaimValue.vNull => "null"

/-- The key-probing loop of `resolveClaim`: first key whose value is neither
`undefined` (absent) nor `null` wins. -/
def resolveClaimGo (cs : ClaimRecord) : List String → String
  | [] => ""
  | key :: rest =>
      match cs.lookup key with
      | some v => if v = ClaimValue.vNull then resolveClaimGo cs rest else claimString v
      | none => resolveClaimGo cs rest

/-- `resolveClaim(claims, keys)`. -/
def resolveClaim (claims : Option ClaimRecord) (keys : List String) : String :=
  match claims with
  | none => ""
  | some cs => resolveClaimGo cs keys

/-- `Number.parseInt(s, 10)` with `Number.isFinite` applied to the result:
`none` is NaN.  (JS would overflow to `Infinity` only beyond ~10^308; claim
values of that size are out of scope, so the result is an exact `Int`.) -/
def parseIntDec (s : String) : Option Int :=
  let cs := s.toList.dropWhile (fun c => c.isWhitespace)
  let signed : Int × List Char :=
    match cs with
    | '-' :: rest => (-1, rest)
    | '+' :: rest => (1, rest)
    | _ => (1, cs)
  let ds := signed.2.takeWhile (fun c => c.isDigit)
  if ds.isEmpty then none
  else some (signed.1 * (ds.foldl (fun a c => a * 10 + (c.toNat - 48)) 0 : Nat))

/-- The identity record of the store (`AuthUser`). -/
structure AuthUser where
  id : Int
  email : String
  role : String
  usersName : String
  deriving DecidableEq, Repr

/-- `extractUserFromClaims`: the identity is present only when the id claim
parses to a finite integer; otherwise `null`, never a partial record. -/
def extractUserFromClaims (claims : Option ClaimRecord) : Option AuthUser :=
  match claims with
  | none => none
  | some _ =>
    let idValue := resolveClaim claims ID_CLAIM_KEYS
    match parseIntDec idValue with
    | none => none
    | some parsedId =>
        some { id := parsedId
               email := resolveClaim claims EMAIL_CLAIM_KEYS
               role := resolveClaim claims ROLE_CLAIM_KEYS
               usersName := resolveClaim claims NAME_CLAIM_KEYS }

/-! ### Base-URL joining (auth.ts `normalizeBaseUrl`, filter.ts `buildApiUrl`) -/

/-- `normalizeBaseUrl` of src/stores/auth.ts (lines 70-81), with the
configured `API_BASE_URL` made explicit. -/
def normalizeBaseUrl (apiBaseUrl : String) (path : String) : String :=
  if jsStartsWith path "http" || jsStartsWith path "//" then path
  else if jsEndsWith apiBaseUrl "/" && jsStartsWith path "/" then
    apiBaseUrl ++ jsDropFirst path
  else if !jsEndsWith apiBaseUrl "/" && !jsStartsWith path "/" then
    apiBaseUrl ++ "/" ++ path
  else apiBaseUrl ++ path

/-- `(BASE_URL ?? '').replace(slash-at-end, '')` (src/scripts/filter.ts line 60). -/
def stripTrailingSlash (s : String) : String :=
  if jsEndsWith s "/" then String.mk s.data.dropLast else s

/-- `buildApiUrl` of src/scripts/filter.ts (lines 319-322). -/
def buildApiUrl (apiBase : String) (path : String) : String :=
  let normalized := if jsStartsWith path "/" then path else "/" ++ path
  if apiBase = "" then normalized else apiBase ++ normalized

/-! ### A concrete platform environment for witnesses

`asciiDecode` agrees with the lenient `TextDecoder` on the all-ASCII byte
strings the witnesses decode; `jsonParseId1` agrees with `JSON.parse` on the
single payload it is applied to. -/

def asciiDecode (bs : List Nat) : String :=
  String.mk (bs.map (fun b => if b < 128 then Char.ofNat b else '�'))

def jsonParseId1 : String → Option ClaimRecord := fun s =>
  if s = "\x7b\"id\":\"1\"\x7d" then some [("id", ClaimValue.vStr "1")] else none

def env0 : JsEnv := { utf8Decode := asciiDecode, jsonParse := jsonParseId1 }

/-! ### Session state machine (src/stores/auth.ts lines 13-48, 170-357)

The persisted-storage slot is not observable through the claims; the result
of `loadStoredToken()` is the parameter of `mkInitialState`, and
`persistToken`'s writes are omitted.  A network outcome `Except.error msg`
stands for a thrown `Error` whose `.message` is `msg` (both the non-2xx path
via `parseErrorMessage` and transport failures throw `Error` instances, so
the `error instanceof Error` test of the handlers is always true). -/

structure AuthState where
  token : Option String
  user : Option AuthUser
  loading : Bool
  error : Option String
  initialized : Bool
  deriving DecidableEq, Repr

/-- The state constructed at module load (lines 42-48): the persisted token,
and no user yet. -/
def mkInitialState (storedToken : Option String) : AuthState :=
  { token := storedToken, user := none, loading := false, error := none,
    initialized := false }

/-- JS truthiness of a `string | null` token: non-null and non-empty. -/
def tokenTruthy : Option String → Bool
  | none => false
  | some t => if t = "" then false else true

/-- `applyToken` (lines 170-179): store the token and re-derive `user` from
its claims (storage write omitted). -/
def applyTokenS (env : JsEnv) (t : Option String) (s : AuthState) : AuthState :=
  { s with
    token := t
    user := if tokenTruthy t then
              extractUserFromClaims (decodeToken env (t.getD ""))
            else none }

/-- `login` (lines 274-287) around `loginInternal`: `Except.ok tok` is the
raw token body of a 2xx response, `Except.error msg` a thrown error.  The
second component is what the operation raises to its caller. -/
def loginRun (env : JsEnv) (outcome : Except String String) (s : AuthState) :
    AuthState × Except String Unit :=
  let s1 := { s with loading := true, error := none }
  match outcome with
  | Except.ok tok =>
      let s2 := applyTokenS env (some tok) s1
      ({ s2 with loading := false, initialized := true }, Except.ok ())
  | Except.error msg =>
      let s2 := applyTokenS env none s1
      let s3 := { s2 with error := some msg }
      ({ s3 with loading := false, initialized := true }, Except.error msg)

/-- `register` (lines 289-302): the same contract as `login`, against the
registration endpoint. -/
def registerRun (env : JsEnv) (outcome : Except String String) (s : AuthState) :
    AuthState × Except String Unit :=
  let s1 := { s with loading := true, error := none }
  match outcome with
  | Except.ok tok =>
      let s2 := applyTokenS env (some tok) s1
      ({ s2 with loading := false, initialized := true }, Except.ok ())
  | Except.error msg =>
      let s2 := applyTokenS env none s1
      let s3 := { s2 with error := some msg }
      ({ s3 with loading := false, initialized := true }, Except.error msg)

/-- `logout` (lines 304-316) around `logoutInternal` (lines 259-267):
`logoutInternal` clears the token in a `finally` around the network POST, so
the clearing happens in both branches and before the wrapper records and
re-raises the error.  `outcome = none` is a 2xx response, `some msg` a
thrown error. -/
def logoutRun (env : JsEnv) (outcome : Option String) (s : AuthState) :
    AuthState × Except String Unit :=
  let s1 := { s with loading := true, error := none }
  let s2 := applyTokenS env none s1
  match outcome with
  | none => ({ s2 with loading := false, initialized := true }, Except.ok ())
  | some msg =>
      ({ s2 with error := some msg, loading := false, initialized := true },
        Except.error msg)

/-- `initialize` (lines 318-335): a no-op when already initialized;
otherwise decodes the current token into `user`, touching no network.  (Its
catch branch is dead: `decodeToken` never throws.) -/
def initRun (env : JsEnv) (s : AuthState) : AuthState :=
  if s.initialized then s
  else
    let s1 := { s with loading := true, error := none }
    let s2 :=
      if tokenTruthy s1.token then
        { s1 with
          user := extractUserFromClaims (decodeToken env (s1.token.getD "")) }
      else s1
    { s2 with loading := false, initialized := true }

/-- One completed session operation together with its network outcome. -/
inductive AuthOp
  | loginOp (outcome : Except String String)
  | registerOp (outcome : Except String String)
  | logoutOp (outcome : Option String)
  | initOp

/-- The state after one completed operation. -/
def authStep (env : JsEnv) (op : AuthOp) (s : AuthState) : AuthState :=
  match op with
  | AuthOp.loginOp o => (loginRun env o s).1
  | AuthOp.registerOp o => (registerRun env o s).1
  | AuthOp.logoutOp o => (logoutRun env o s).1
  | AuthOp.initOp => initRun env s

/-- The state after a sequence of completed operations. -/
def authRun (env : JsEnv) (ops : List AuthOp) (s : AuthState) : AuthState :=
  ops.foldl (fun t op => authStep env op t) s

/-- The §3 session invariant: `user` is exactly the decoded projection of
`token`'s claims (absent when `token` is absent or undecodable). -/
def userMatchesToken (env : JsEnv) (s : AuthState) : Prop :=
  s.user = match s.token with
           | none => none
           | some t => extractUserFromClaims (decodeToken env t)

/-! ### Order-detail grid model (src/scripts/filter.ts, OrderDetailView)

Row and header fields hold JS numbers (`JNum`).  `normalizeOrderHead` and
`normalizeProductOption` reject records whose id is not finite and ≥ 0, so
header and option ids are plain `ℚ`; detail rows can carry a non-finite
`orderId`/`productId` through `normalizeOrderDetail`, hence those stay
`JNum`.  Dates are kept as the raw strings the server sent (no claim
depends on date arithmetic). -/

/-- `OrderHeadModel` (filter.ts lines 70-77). -/
structure OrderHeadModel where
  id : ℚ
  orderNumber : String
  orderDate : Option String
  userId : Option ℚ
  usersName : String
  totalPrice : Option ℚ
  deriving DecidableEq, Repr

/-- `OrderDetailRow` (filter.ts lines 79-87). -/
structure OrderDetailRow where
  id : JNum
  orderId : JNum
  productId : JNum
  productName : String
  qty : JNum
  price : JNum
  rowSum : JNum
  deriving DecidableEq, Repr

/-- `ProductOption` (filter.ts lines 89-93). -/
structure ProductOption where
  id : ℚ
  label : String
  price : JNum
  deriving DecidableEq, Repr

/-- JS `===` between numbers: false when either side is NaN. -/
def jeq (a b : JNum) : Bool :=
  match a, b with
  | some x, some y => decide (x = y)
  | _, _ => false

/-- `!Number.isFinite(x) || x <= 0`: the rejection test for quantities,
product ids and order ids. -/
def jNotPos (a : JNum) : Bool :=
  match a with
  | none => true
  | some x => decide (x ≤ 0)

/-- JS multiplication: a non-finite operand gives a non-finite result. -/
def jmul (a b : JNum) : JNum :=
  match a, b with
  | some x, some y => some (x * y)
  | _, _ => none

/-- A PrimeVue toast message (`toast.add`). -/
inductive ToastSeverity
  | success
  | warn
  | errorT
  deriving DecidableEq, Repr

structure Toast where
  severity : ToastSeverity
  summary : String
  detail : String
  deriving DecidableEq, Repr

/-- The refs of the order-detail view that the modelled operations touch. -/
structure DetailState where
  order : Option OrderHeadModel
  details : List OrderDetailRow
  selectedDetail : Option OrderDetailRow
  editingDetail : Option OrderDetailRow
  productOptions : List ProductOption
  productOptionsLoaded : Bool
  productOptionsLoading : Bool
  selectedProductId : Option JNum
  toasts : List Toast
  deriving DecidableEq, Repr

/-- Append a toast (`toast.add`). -/
def addToast (sev : ToastSeverity) (summary detail : String)
    (s : DetailState) : DetailState :=
  { s with toasts := s.toasts ++ [{ severity := sev, summary := summary,
                                    detail := detail }] }

/-- `normalizeOrderDetail` (lines 404-437) restricted to an already-typed
row record (dual-casing and missing-field defaulting concern raw JSON
records; the model's inputs are the decoded records themselves): a
non-finite or negative id rejects the row, and non-finite qty, price and
rowSum are coerced to 0. -/
def normalizeRow (r : OrderDetailRow) : Option OrderDetailRow :=
  match r.id with
  | none => none
  | some i =>
      if i < 0 then none
      else
        some { r with
               qty := some (r.qty.getD 0)
               price := some (r.price.getD 0)
               rowSum := some (r.rowSum.getD 0) }

/-- The `reduce` of `recalcOrderTotal`: sum of `rowSum` over the rows, a
non-finite `rowSum` contributing 0. -/
def detailsTotal (l : List OrderDetailRow) : ℚ :=
  l.foldl (fun acc item => acc + (match item.rowSum with
                                  | some v => v
                                  | none => 0)) 0

/-- `recalcOrderTotal` (lines 654-670). -/
def recalcOrderTotal (s : DetailState) : DetailState :=
  match s.order with
  | none => s
  | some currentOrder =>
      let updated := { currentOrder with
        totalPrice := some (detailsTotal s.details) }
      { s with order := some updated }

/-- `applyDetailRowPatch` (lines 626-652).  Every call site passes a full
row as the patch, so the spread-merge `{...details[index], ...patch}` is the
patch itself. -/
def applyDetailRowPatch (rowId : JNum) (patch : OrderDetailRow)
    (s : DetailState) : DetailState :=
  match s.details.findIdx? (fun item => jeq item.id rowId) with
  | none => s
  | some index =>
      let merged := patch
      let s1 := { s with details := s.details.set index merged }
      let s2 :=
        match s1.selectedDetail with
        | some sel =>
            if jeq sel.id merged.id then { s1 with selectedDetail := some merged }
            else s1
        | none => s1
      recalcOrderTotal s2

/-- The PUT issued by `persistDetailRowUpdate` (its JSON body happens to
equal the optimistically applied row) together with the rows its
continuation closes over. -/
structure PendingPut where
  body : OrderDetailRow
  previousRow : OrderDetailRow
  deriving DecidableEq, Repr

/-- `persistDetailRowUpdate` (lines 1001-1074) up to its `await fetch`: the
guards, the optimistic local apply, and the PUT it issues (`none` = returned
with no network call).  `nextRow.orderId`, `.price`, `.rowSum` are present
on a typed row, so the `?? order.value?.id ?? 0` and `?? 0` fallbacks never
fire. -/
def persistDetailRowStart (nextRow previousRow : OrderDetailRow)
    (s : DetailState) : DetailState × Option PendingPut :=
  let targetOrderId := nextRow.orderId
  if jNotPos targetOrderId then
    (applyDetailRowPatch previousRow.id previousRow s, none)
  else
    let rowSum := match nextRow.rowSum with
                  | some v => some v
                  | none => jmul nextRow.price nextRow.qty
    if jNotPos nextRow.productId || jNotPos nextRow.qty then
      (applyDetailRowPatch previousRow.id previousRow s, none)
    else
      let optimistic : OrderDetailRow :=
        { nextRow with orderId := targetOrderId, rowSum := rowSum }
      (applyDetailRowPatch nextRow.id optimistic s,
       some { body := optimistic, previousRow := previousRow })

/-- The continuation of `persistDetailRowUpdate` when its PUT settles:
`Except.ok echo` is a 2xx response whose parsed body decoded to `echo`
(`none` when it was not a row object; `normalizeRow` then applies the id
check and coercions), `Except.error msg` a non-2xx status or a network
error with message `msg`. -/
def completePut (p : PendingPut)
    (outcome : Except String (Option OrderDetailRow)) (s : DetailState) :
    DetailState :=
  match outcome with
  | Except.ok echo =>
      match echo.bind normalizeRow with
      | some normalized =>
          if jeq normalized.id p.body.id then
            applyDetailRowPatch normalized.id normalized s
          else s
      | none => s
  | Except.error msg =>
      addToast ToastSeverity.errorT "Ошибка обновления" msg
        (applyDetailRowPatch p.previousRow.id p.previousRow s)

/-- JS `s.trim()` (approximating the JS whitespace class by Lean's). -/
def jsTrim (s : String) : String :=
  String.mk (((s.data.dropWhile (fun c => c.isWhitespace)).reverse.dropWhile
    (fun c => c.isWhitespace)).reverse)

/-- JS falsiness of `selectedProductId : number | null` — null, 0 or NaN. -/
def selFalsy : Option JNum → Bool
  | none => true
  | some none => true
  | some (some q) => decide (q = 0)

/-- `ensureCurrentProductInOptions` (lines 596-624): when the selected
product id is missing from the options, re-add it from the row being edited
or the selected row.  (The fallback's `productId` is finite whenever its
`===` comparison with the selection succeeded.) -/
def ensureCurrentProductInOptions (s : DetailState) : DetailState :=
  match s.selectedProductId with
  | none => s
  | some sel =>
      if s.productOptions.any (fun option => jeq (some option.id) sel) then s
      else
        let fallback : Option OrderDetailRow :=
          match s.editingDetail with
          | some e =>
              if jeq e.productId sel then some e
              else
                match s.selectedDetail with
                | some d => if jeq d.productId sel then some d else none
                | none => none
          | none =>
              match s.selectedDetail with
              | some d => if jeq d.productId sel then some d else none
              | none => none
        match fallback with
        | none => s
        | some f =>
            match f.productId with
            | some pid =>
                { s with productOptions := s.productOptions ++
                    [{ id := pid, label := f.productName, price := f.price }] }
            | none => s

/-- `ensureProductOptions` (lines 787-834): guarded GET of the product
list.  The oracle `outcome` carries the decoded rows of a 2xx response
(already shaped as options — `normalizeProductOption` guarantees a finite
id ≥ 0 and label trimming / price coercion are applied here), or the thrown
error's message.  The Bool reports whether the GET was actually issued. -/
def ensureProductOptionsRun (outcome : Except String (List ProductOption))
    (s : DetailState) : DetailState × Bool :=
  if s.productOptionsLoaded || s.productOptionsLoading then (s, false)
  else
    match outcome with
    | Except.ok payload =>
        let options := (payload.map (fun o =>
            { o with label := jsTrim o.label,
                     price := some (o.price.getD 0) })).filter
          (fun o => o.label != "")
        let s1 := { s with
          productOptions := options
          productOptionsLoaded := true
          productOptionsLoading := false }
        let s2 := ensureCurrentProductInOptions s1
        let s3 :=
          match options with
          | [] => s2
          | o :: _ =>
              if selFalsy s2.selectedProductId then
                { s2 with selectedProductId := some (some o.id) }
              else s2
        (s3, true)
    | Except.error msg =>
        (addToast ToastSeverity.errorT "Ошибка загрузки" msg
          { s with productOptionsLoading := false }, true)

/-- The payload of a `DataTableCellEditCompleteEvent` as the handler reads
it: the pre-edit row object, the edited field, and the proposed value
(`none` = a cleared input, JS `null`/`undefined`). -/
structure CellEditEvent where
  data : OrderDetailRow
  field : String
  newValue : Option JNum
  deriving DecidableEq, Repr

/-- `details.value.find(item => item.id === previousRow.id) ?? previousRow`. -/
def currentRowFor (s : DetailState) (prev : OrderDetailRow) : OrderDetailRow :=
  (s.details.find? (fun item => jeq item.id prev.id)).getD prev

/-- The outcome of one `handleDetailCellEdit` call up to the point where its
PUT (if any) is in flight: the state after the synchronous work, whether a
product-list GET was issued on the way, and the pending PUT. -/
structure EditResult where
  state : DetailState
  optionsFetched : Bool
  pending : Option PendingPut
  deriving DecidableEq, Repr

/-- `handleDetailCellEdit` (lines 1076-1179).  `oo` is the oracle for the
product-list GET that the productId branch may await. -/
def handleDetailCellEdit (oo : Except String (List ProductOption))
    (e : CellEditEvent) (s : DetailState) : EditResult :=
  match s.order with
  | none => { state := s, optionsFetched := false, pending := none }
  | some o =>
    if o.id ≤ 0 then { state := s, optionsFetched := false, pending := none }
    else if e.field ≠ "productId" ∧ e.field ≠ "qty" then
      { state := s, optionsFetched := false, pending := none }
    else
      match normalizeRow e.data with
      | none => { state := s, optionsFetched := false, pending := none }
      | some previousRow =>
        let currentRow := currentRowFor s previousRow
        if e.field = "productId" then
          let nextProductId := e.newValue.getD currentRow.productId
          if jNotPos nextProductId then
            { state := addToast ToastSeverity.warn "Товар"
                "Выберите товар из списка."
                (applyDetailRowPatch previousRow.id previousRow s)
              optionsFetched := false
              pending := none }
          else
            let fetchStep :=
              if !s.productOptionsLoaded then ensureProductOptionsRun oo s
              else (s, false)
            let s1 := fetchStep.1
            match s1.productOptions.find?
                (fun item => jeq (some item.id) nextProductId) with
            | none =>
                { state := addToast ToastSeverity.warn "Товар"
                    "Не удалось найти выбранный товар."
                    (applyDetailRowPatch previousRow.id previousRow s1)
                  optionsFetched := fetchStep.2
                  pending := none }
            | some option =>
                let hasProductChanged :=
                  !jeq (some option.id) previousRow.productId
                    || option.label != previousRow.productName
                    || !jeq option.price previousRow.price
                let safeQuantity : ℚ := currentRow.qty.getD 0
                let nextRow : OrderDetailRow :=
                  { currentRow with
                    productId := some option.id
                    productName := option.label
                    price := option.price
                    rowSum := jmul option.price (some safeQuantity) }
                if !hasProductChanged then
                  { state := applyDetailRowPatch nextRow.id nextRow s1
                    optionsFetched := fetchStep.2
                    pending := none }
                else
                  let step := persistDetailRowStart nextRow previousRow s1
                  { state := step.1, optionsFetched := fetchStep.2,
                    pending := step.2 }
        else
          let nextQty := e.newValue.getD currentRow.qty
          if jNotPos nextQty then
            { state := addToast ToastSeverity.warn "Количество"
                "Количество должно быть больше нуля."
                (applyDetailRowPatch previousRow.id previousRow s)
              optionsFetched := false
              pending := none }
          else
            let hasQtyChanged := !jeq nextQty previousRow.qty
            let nextRow : OrderDetailRow :=
              { currentRow with
                qty := nextQty
                rowSum := jmul currentRow.price nextQty }
            if !hasQtyChanged then
              { state := applyDetailRowPatch nextRow.id nextRow s
                optionsFetched := false
                pending := none }
            else
              let step := persistDetailRowStart nextRow previousRow s
              { state := step.1, optionsFetched := false, pending := step.2 }

/-! ### Idempotent creation guard (`ensureOrderCreated`, lines 676-785)

The POST body (lines 704-715) packages the draft header with the form's
date; its content does not bear on the claim — which is about how many
POSTs are issued and the id the callers observe — so the issued POST is
modelled by a counter.  The toast and router-navigation side effects of the
creation continuation are likewise outside the claim and omitted. -/

structure CreateState where
  order : Option OrderHeadModel
  creationPending : Bool
  posts : Nat
  deriving DecidableEq, Repr

/-- What the synchronous prefix of `ensureOrderCreated` does: return
immediately (`!order.value || order.value.id > 0`), await the already
in-flight creation, or install the in-flight promise and issue the POST. -/
inductive StartResult
  | immediateFalse
  | awaitPending
  | issued
  deriving DecidableEq, Repr

def ensureStart (s : CreateState) : CreateState × StartResult :=
  match s.order with
  | none => (s, StartResult.immediateFalse)
  | some draft =>
      if 0 < draft.id then (s, StartResult.immediateFalse)
      else if s.creationPending then (s, StartResult.awaitPending)
      else ({ s with creationPending := true, posts := s.posts + 1 },
            StartResult.issued)

/-- The creation continuation once its POST settles: a 2xx response must
decode to a header with a positive id (else it throws); the `finally`
clears the in-flight slot in every case.  The Bool is the promise's value
(`false` = it rejected). -/
def createComplete (outcome : Except String (Option OrderHeadModel))
    (s : CreateState) : CreateState × Bool :=
  match outcome with
  | Except.ok none => ({ s with creationPending := false }, false)
  | Except.ok (some normalized) =>
      if normalized.id ≤ 0 then ({ s with creationPending := false }, false)
      else ({ s with order := some normalized, creationPending := false }, true)
  | Except.error _ => ({ s with creationPending := false }, false)

/-- Two overlapping `ensureOrderCreated` calls in event order: A starts,
B starts while A's creation is in flight, the creation settles, then A
returns the promise's value and B — having awaited the same promise —
returns `Boolean(order.value && order.value.id > 0)`. -/
def twoCallersTrace (s0 : CreateState)
    (outcome : Except String (Option OrderHeadModel)) :
    CreateState × StartResult × StartResult × Bool × Bool :=
  let step1 := ensureStart s0
  let step2 := ensureStart step1.1
  let fin := createComplete outcome step2.1
  let retA := fin.2
  let retB :=
    if fin.2 then
      match fin.1.order with
      | some o => decide (0 < o.id)
      | none => false
    else false
  (fin.1, step1.2, step2.2, retA, retB)

/-! ## Theorems -/

/-- **C1.** `decodeToken` is total (`Option`-valued, never throws): when the
token splits on `.` into at least 2 segments whose second segment is
non-empty, base64url-decodes (after `-`/`_` substitution and `=`-padding) and
JSON-parses, the result is exactly the parsed mapping; for every malformed
token — fewer than 2 segments, empty second segment, invalid base64, invalid
JSON — the result is `none`. -/
theorem decodeToken_total_spec (env : JsEnv) (token : String) :
    (∀ (payload : String) (m : ClaimRecord),
        2 ≤ (jsSplitDot token).length →
        (jsSplitDot token).getD 1 "" ≠ "" →
        decodeBase64Url env ((jsSplitDot token).getD 1 "") = some payload →
        env.jsonParse payload = some m →
        decodeToken env token = some m)
    ∧ ((jsSplitDot token).length < 2 → decodeToken env token = none)
    ∧ ((jsSplitDot token).getD 1 "" = "" → decodeToken env token = none)
    ∧ (decodeBase64Url env ((jsSplitDot token).getD 1 "") = none →
        decodeToken env token = none)
    ∧ (∀ payload : String,
        decodeBase64Url env ((jsSplitDot token).getD 1 "") = some payload →
        env.jsonParse payload = none →
        decodeToken env token = none) := by
  have hEmptySplit : (jsSplitDot "").length = 1 := rfl
  refine ⟨?_, ?_, ?_, ?_, ?_⟩
  · intro payload m h2 hne hdec hparse
    have htok : ¬ token = "" := by
      intro h
      rw [h, hEmptySplit] at h2
      omega
    have hlen : ¬ (jsSplitDot token).length < 2 := by omega
    simp only [decodeToken, if_neg htok, if_neg hlen, if_neg hne, hdec, hparse]
  · intro hlt
    by_cases htok : token = ""
    · simp only [decodeToken, if_pos htok]
    · simp only [decodeToken, if_neg htok, if_pos hlt]
  · intro hpay
    by_cases htok : token = ""
    · simp only [decodeToken, if_pos htok]
    · by_cases hlt : (jsSplitDot token).length < 2
      · simp only [decodeToken, if_neg htok, if_pos hlt]
      · simp only [decodeToken, if_neg htok, if_neg hlt, if_pos hpay]
  · intro hdec
    by_cases htok : token = ""
    · simp only [decodeToken, if_pos htok]
    · by_cases hlt : (jsSplitDot token).length < 2
      · simp only [decodeToken, if_neg htok, if_pos hlt]
      · by_cases hpay : (jsSplitDot token).getD 1 "" = ""
        · simp only [decodeToken, if_neg htok, if_neg hlt, if_pos hpay]
        · simp only [decodeToken, if_neg htok, if_neg hlt, if_neg hpay, hdec]
  · intro payload hdec hparse
    by_cases htok : token = ""
    · simp only [decodeToken, if_pos htok]
    · by_cases hlt : (jsSplitDot token).length < 2
      · simp only [decodeToken, if_neg htok, if_pos hlt]
      · by_cases hpay : (jsSplitDot token).getD 1 "" = ""
        · simp only [decodeToken, if_neg htok, if_neg hlt, if_pos hpay]
        · simp only [decodeToken, if_neg htok, if_neg hlt, if_neg hpay, hdec,
            hparse]

/-- Witness for C1: a well-formed token decodes to its parsed mapping; a
token with a single segment decodes to `none`. -/
theorem decodeToken_total_spec_witness :
    decodeToken env0 "h.eyJpZCI6IjEifQ.sig" = some [("id", ClaimValue.vStr "1")]
      ∧ decodeToken env0 "notoken" = none := by
  constructor
  · exact (decodeToken_total_spec env0 "h.eyJpZCI6IjEifQ.sig").1
      "\x7b\"id\":\"1\"\x7d" [("id", ClaimValue.vStr "1")]
      (by decide) (by decide) (by decide) (by decide)
  · exact (decodeToken_total_spec env0 "notoken").2.1 (by decide)

/-- **C8.** When no id key resolves to a parseable finite integer (in
particular when no id key is present at all), the resolved identity is
absent — never a partial record or a NaN id — even if email, role or name
claims are present. -/
theorem extractUser_invalid_id_absent :
    (∀ claims : ClaimRecord,
        parseIntDec (resolveClaim (some claims) ID_CLAIM_KEYS) = none →
        extractUserFromClaims (some claims) = none)
    ∧ (∀ claims : ClaimRecord, claims.lookup "id" = none →
        extractUserFromClaims (some claims) = none)
    ∧ extractUserFromClaims none = none := by
  have hBase : ∀ claims : ClaimRecord,
      parseIntDec (resolveClaim (some claims) ID_CLAIM_KEYS) = none →
      extractUserFromClaims (some claims) = none := by
    intro claims h
    simp only [extractUserFromClaims, h]
  refine ⟨hBase, ?_, rfl⟩
  intro claims h
  apply hBase
  have : resolveClaim (some claims) ID_CLAIM_KEYS = "" := by
    simp only [resolveClaim, ID_CLAIM_KEYS, resolveClaimGo, h]
  rw [this]
  decide

/-- Witness for C8: claims carrying email, role and name but no id resolve
to an absent identity. -/
theorem extractUser_invalid_id_absent_witness :
    extractUserFromClaims
      (some [("email", ClaimValue.vStr "a@b.com"),
             ("role", ClaimValue.vStr "admin"),
             ("name", ClaimValue.vStr "N")]) = none :=
  extractUser_invalid_id_absent.1 _ (by decide)

/-- **C9.** Base-URL joining: `"https://api.x/"` joined with
`"/api/Product"` and `"https://api.x"` joined with `"api/Product"` both
yield `"https://api.x/api/Product"` (for the auth request helper and for the
grid's `buildApiUrl`, whose base is pre-stripped of a trailing slash); every
absolute (`http…`) or protocol-relative (`//…`) path passes through the auth
request helper unchanged. -/
theorem baseUrl_join_spec :
    normalizeBaseUrl "https://api.x/" "/api/Product" = "https://api.x/api/Product"
    ∧ normalizeBaseUrl "https://api.x" "api/Product" = "https://api.x/api/Product"
    ∧ buildApiUrl (stripTrailingSlash "https://api.x/") "/api/Product"
        = "https://api.x/api/Product"
    ∧ buildApiUrl (stripTrailingSlash "https://api.x") "api/Product"
        = "https://api.x/api/Product"
    ∧ (∀ base path : String,
        jsStartsWith path "http" = true ∨ jsStartsWith path "//" = true →
        normalizeBaseUrl base path = path) := by
  refine ⟨by decide, by decide, by decide, by decide, ?_⟩
  intro base path h
  rcases h with h | h <;> simp [normalizeBaseUrl, h]

/-- Witness for C9: an absolute URL passes through unchanged. -/
theorem baseUrl_join_spec_witness :
    normalizeBaseUrl "https://api.x" "https://cdn.example/x"
      = "https://cdn.example/x" :=
  baseUrl_join_spec.2.2.2.2 "https://api.x" "https://cdn.example/x"
    (Or.inl (by decide))

/-! ### Session invariant lemmas -/

/-- `applyToken` always re-establishes the invariant. -/
lemma applyTokenS_matches (env : JsEnv) (t : Option String) (s : AuthState) :
    userMatchesToken env (applyTokenS env t s) := by
  cases t with
  | none => simp [applyTokenS, userMatchesToken, tokenTruthy]
  | some tok =>
      by_cases h : tok = ""
      · subst h
        simp [applyTokenS, userMatchesToken, tokenTruthy, decodeToken,
          extractUserFromClaims]
      · simp [applyTokenS, userMatchesToken, tokenTruthy, h]

/-- A login, register or logout step establishes the invariant and leaves
the session initialized, whatever the starting state. -/
lemma authStep_establishes (env : JsEnv) (op : AuthOp) (s : AuthState)
    (hop : op ≠ AuthOp.initOp) :
    userMatchesToken env (authStep env op s)
      ∧ (authStep env op s).initialized = true := by
  cases op with
  | loginOp o =>
      cases o with
      | ok tok =>
          refine ⟨?_, rfl⟩
          have := applyTokenS_matches env (some tok)
            { s with loading := true, error := none }
          simpa [authStep, loginRun, userMatchesToken] using this
      | error msg =>
          refine ⟨?_, rfl⟩
          simp [authStep, loginRun, userMatchesToken, applyTokenS, tokenTruthy]
  | registerOp o =>
      cases o with
      | ok tok =>
          refine ⟨?_, rfl⟩
          have := applyTokenS_matches env (some tok)
            { s with loading := true, error := none }
          simpa [authStep, registerRun, userMatchesToken] using this
      | error msg =>
          refine ⟨?_, rfl⟩
          simp [authStep, registerRun, userMatchesToken, applyTokenS,
            tokenTruthy]
  | logoutOp o =>
      cases o with
      | none =>
          refine ⟨?_, rfl⟩
          simp [authStep, logoutRun, userMatchesToken, applyTokenS, tokenTruthy]
      | some msg =>
          refine ⟨?_, rfl⟩
          simp [authStep, logoutRun, userMatchesToken, applyTokenS, tokenTruthy]
  | initOp => exact absurd rfl hop

/-- Every step preserves the invariant once the session is initialized. -/
lemma authStep_preserves (env : JsEnv) (op : AuthOp) (s : AuthState)
    (hinv : userMatchesToken env s) (hini : s.initialized = true) :
    userMatchesToken env (authStep env op s)
      ∧ (authStep env op s).initialized = true := by
  cases op with
  | loginOp o => exact authStep_establishes env (AuthOp.loginOp o) s (by simp)
  | registerOp o =>
      exact authStep_establishes env (AuthOp.registerOp o) s (by simp)
  | logoutOp o => exact authStep_establishes env (AuthOp.logoutOp o) s (by simp)
  | initOp =>
      have : authStep env AuthOp.initOp s = s := by
        simp [authStep, initRun, hini]
      rw [this]
      exact ⟨hinv, hini⟩

/-- The first completed operation from the freshly constructed state
establishes the invariant. -/
lemma authStep_first (env : JsEnv) (op : AuthOp) (storedToken : Option String) :
    userMatchesToken env (authStep env op (mkInitialState storedToken))
      ∧ (authStep env op (mkInitialState storedToken)).initialized = true := by
  cases op with
  | loginOp o => exact authStep_establishes env (AuthOp.loginOp o) _ (by simp)
  | registerOp o =>
      exact authStep_establishes env (AuthOp.registerOp o) _ (by simp)
  | logoutOp o => exact authStep_establishes env (AuthOp.logoutOp o) _ (by simp)
  | initOp =>
      refine ⟨?_, ?_⟩
      · cases storedToken with
        | none => simp [authStep, initRun, mkInitialState, userMatchesToken,
            tokenTruthy]
        | some t =>
            by_cases h : t = ""
            · subst h
              simp [authStep, initRun, mkInitialState, userMatchesToken,
                tokenTruthy, decodeToken, extractUserFromClaims]
            · simp [authStep, initRun, mkInitialState, userMatchesToken,
                tokenTruthy, h]
      · cases storedToken with
        | none => simp [authStep, initRun, mkInitialState]
        | some t =>
            by_cases h : t = ""
            · subst h
              simp [authStep, initRun, mkInitialState, tokenTruthy]
            · simp [authStep, initRun, mkInitialState, tokenTruthy, h]

/-- Invariance propagates along any operation sequence. -/
lemma authRun_preserves (env : JsEnv) (ops : List AuthOp) (s : AuthState)
    (hinv : userMatchesToken env s) (hini : s.initialized = true) :
    userMatchesToken env (authRun env ops s)
      ∧ (authRun env ops s).initialized = true := by
  induction ops generalizing s with
  | nil => exact ⟨hinv, hini⟩
  | cons op rest ih =>
      have h := authStep_preserves env op s hinv hini
      simpa [authRun] using ih (authStep env op s) h.1 h.2

/-- **C2, counterexample.** The claim includes the initial state constructed
from persisted storage in "every reachable session state"; but the store
constructs that state with `user: null` without decoding the persisted
token, so with a decodable stored token the invariant fails until
`initialize` runs. -/
theorem session_invariant_initial_counterexample :
    ¬ userMatchesToken env0
        (mkInitialState (some "h.eyJpZCI6IjEifQ.sig")) := by
  intro h
  have hdec : extractUserFromClaims
      (decodeToken env0 "h.eyJpZCI6IjEifQ.sig")
        = some { id := 1, email := "", role := "", usersName := "" } := by
    decide
  rw [userMatchesToken] at h
  have h2 : (none : Option AuthUser)
      = extractUserFromClaims (decodeToken env0 "h.eyJpZCI6IjEifQ.sig") := h
  rw [hdec] at h2
  exact Option.noConfusion h2

/-- **C2, amended.** After every completed login, register, logout or
initialize operation — i.e. in every state reached from the persisted-storage
initial state by at least one completed operation — `user` is exactly the
identity decoded from the current `token`'s claims, and absent when `token`
is absent or undecodable; in the initial state itself `user` is always
absent (so the claimed invariant holds there only when the stored token is
absent or undecodable). -/
theorem session_invariant_after_ops (env : JsEnv)
    (storedToken : Option String) (op : AuthOp) (ops : List AuthOp) :
    userMatchesToken env
        (authRun env (op :: ops) (mkInitialState storedToken))
      ∧ (mkInitialState storedToken).user = none := by
  refine ⟨?_, rfl⟩
  have h := authStep_first env op storedToken
  have := authRun_preserves env ops
    (authStep env op (mkInitialState storedToken)) h.1 h.2
  simpa [authRun] using this.1

/-- **C5.** After every failing login (non-2xx response or thrown network
error, both surfacing as a thrown `Error` with the server-provided message),
the cleanup leaves `token` and `user` absent, `error` holding that message,
`initialized` true, `loading` false, and the error re-raised to the caller. -/
theorem login_failure_state (env : JsEnv) (s : AuthState) (msg : String) :
    (loginRun env (Except.error msg) s).1.token = none
    ∧ (loginRun env (Except.error msg) s).1.user = none
    ∧ (loginRun env (Except.error msg) s).1.error = some msg
    ∧ (loginRun env (Except.error msg) s).1.initialized = true
    ∧ (loginRun env (Except.error msg) s).1.loading = false
    ∧ (loginRun env (Except.error msg) s).2 = Except.error msg :=
  ⟨rfl, rfl, rfl, rfl, rfl, rfl⟩

/-- **C6.** `logout` clears the token and identity locally in both the
success case and the network-failure case (the clearing sits in a `finally`
that runs before the wrapper re-raises), and in the failure case the error
is re-raised to the caller after that local cleanup. -/
theorem logout_clears_locally (env : JsEnv) (s : AuthState)
    (outcome : Option String) :
    (logoutRun env outcome s).1.token = none
    ∧ (logoutRun env outcome s).1.user = none
    ∧ (outcome = none → (logoutRun env outcome s).2 = Except.ok ())
    ∧ (∀ msg, outcome = some msg →
        (logoutRun env outcome s).2 = Except.error msg
          ∧ (logoutRun env outcome s).1.error = some msg) := by
  cases outcome with
  | none =>
      refine ⟨rfl, rfl, fun _ => rfl, ?_⟩
      intro msg hmsg
      exact Option.noConfusion hmsg
  | some m =>
      refine ⟨rfl, rfl, ?_, ?_⟩
      · intro hmsg
        exact Option.noConfusion hmsg
      · intro msg hmsg
        cases hmsg
        exact ⟨rfl, rfl⟩

/-- Witness for C6: a concrete logout whose network POST throws still ends
with the token cleared, and the error re-raised. -/
theorem logout_clears_locally_witness :
    (logoutRun env0 (some "net down") (mkInitialState (some "tok"))).1.token
        = none
    ∧ (logoutRun env0 (some "net down") (mkInitialState (some "tok"))).2
        = Except.error "net down" :=
  ⟨(logout_clears_locally env0 (mkInitialState (some "tok"))
      (some "net down")).1,
   ((logout_clears_locally env0 (mkInitialState (some "tok"))
      (some "net down")).2.2.2 "net down" rfl).1⟩

/-! ### Order-detail fixtures -/

/-- The spec's example row `{id:1, qty:2, price:10, rowSum:20}`. -/
def row1 : OrderDetailRow :=
  { id := some 1, orderId := some 5, productId := some 3, productName := "P",
    qty := some 2, price := some 10, rowSum := some 20 }

/-- A loaded order header owning `row1`. -/
def order5 : OrderHeadModel :=
  { id := 5, orderNumber := "N", orderDate := none, userId := none,
    usersName := "", totalPrice := some 20 }

/-- The view state with the order and its single row loaded. -/
def detailState0 : DetailState :=
  { order := some order5, details := [row1], selectedDetail := none,
    editingDetail := none, productOptions := [], productOptionsLoaded := true,
    productOptionsLoading := false, selectedProductId := none, toasts := [] }

/-- The completed edit of `qty` to 5 on `row1`. -/
def qtyEditTo5 : CellEditEvent :=
  { data := row1, field := "qty", newValue := some (some 5) }

/-- `row1` after the optimistic apply of the qty edit. -/
def row1edited : OrderDetailRow :=
  { row1 with qty := some 5, rowSum := some 50 }

/-- The PUT the qty edit issues. -/
def pending1 : PendingPut := { body := row1edited, previousRow := row1 }

/-- The state the qty edit leaves behind while its PUT is in flight. -/
def editStep1 : EditResult :=
  handleDetailCellEdit (Except.error "unused") qtyEditTo5 detailState0

/-- **C3.** Editing `qty` of `{id:1, qty:2, price:10, rowSum:20}` to 5
immediately (before the PUT resolves) makes the in-memory row's `rowSum`
50 = price * new qty; and when the PUT then fails with message `msg`, the
row reverts exactly to its pre-edit snapshot, the selection is untouched and
an error toast carrying `msg` is recorded. -/
theorem optimistic_qty_edit_spec (msg : String) :
    editStep1.state.details = [row1edited]
    ∧ editStep1.pending = some pending1
    ∧ editStep1.optionsFetched = false
    ∧ (completePut pending1 (Except.error msg) editStep1.state).details = [row1]
    ∧ (completePut pending1 (Except.error msg) editStep1.state).selectedDetail
        = detailState0.selectedDetail
    ∧ (completePut pending1 (Except.error msg) editStep1.state).toasts
        = [{ severity := ToastSeverity.errorT, summary := "Ошибка обновления",
             detail := msg }] := by
  have hstep : editStep1
      = { state := { detailState0 with
            details := [row1edited]
            order := some { order5 with totalPrice := some 50 } }
          optionsFetched := false
          pending := some pending1 } := by
    simp [editStep1, handleDetailCellEdit, qtyEditTo5, detailState0,
      row1, order5, normalizeRow, currentRowFor, jNotPos, jeq, jmul,
      persistDetailRowStart, applyDetailRowPatch, recalcOrderTotal,
      detailsTotal, addToast, row1edited, pending1, List.findIdx?,
      List.find?]
    norm_num
  rw [hstep]
  refine ⟨rfl, rfl, rfl, ?_, ?_, ?_⟩
  · norm_num [completePut, applyDetailRowPatch, addToast, recalcOrderTotal,
      detailsTotal, jeq, pending1, row1, row1edited, detailState0, order5,
      List.findIdx?]
  · norm_num [completePut, applyDetailRowPatch, addToast, recalcOrderTotal,
      detailsTotal, jeq, pending1, row1, row1edited, detailState0, order5,
      List.findIdx?]
  · norm_num [completePut, applyDetailRowPatch, addToast, recalcOrderTotal,
      detailsTotal, jeq, pending1, row1, row1edited, detailState0, order5,
      List.findIdx?]

/-- **C7.** An inline edit whose proposed value is invalid — `qty` not a
finite positive number; `productId` not a finite positive number, or absent
from the loaded product options — issues no network call (neither the PUT
nor, with the options loaded, the product-list GET), immediately reverts the
row to its previous value in the local list, and emits a warning toast. -/
theorem invalid_edit_no_network (oo : Except String (List ProductOption))
    (e : CellEditEvent) (s : DetailState) (o : OrderHeadModel)
    (prev : OrderDetailRow)
    (hord : s.order = some o) (hpos : 0 < o.id)
    (hprev : normalizeRow e.data = some prev) :
    (e.field = "qty" →
      jNotPos (e.newValue.getD (currentRowFor s prev).qty) = true →
      handleDetailCellEdit oo e s
        = { state := addToast ToastSeverity.warn "Количество"
              "Количество должно быть больше нуля."
              (applyDetailRowPatch prev.id prev s)
            optionsFetched := false
            pending := none })
    ∧ (e.field = "productId" →
      jNotPos (e.newValue.getD (currentRowFor s prev).productId) = true →
      handleDetailCellEdit oo e s
        = { state := addToast ToastSeverity.warn "Товар"
              "Выберите товар из списка."
              (applyDetailRowPatch prev.id prev s)
            optionsFetched := false
            pending := none })
    ∧ (e.field = "productId" →
      jNotPos (e.newValue.getD (currentRowFor s prev).productId) = false →
      s.productOptionsLoaded = true →
      s.productOptions.find?
          (fun item => jeq (some item.id)
            (e.newValue.getD (currentRowFor s prev).productId)) = none →
      handleDetailCellEdit oo e s
        = { state := addToast ToastSeverity.warn "Товар"
              "Не удалось найти выбранный товар."
              (applyDetailRowPatch prev.id prev s)
            optionsFetched := false
            pending := none }) := by
  have hno : ¬ o.id ≤ 0 := not_le.mpr hpos
  refine ⟨?_, ?_, ?_⟩
  · intro hf hq
    simp only [handleDetailCellEdit, hord, if_neg hno, hf, hprev]
    simp +decide [hq]
  · intro hf hq
    simp only [handleDetailCellEdit, hord, if_neg hno, hf, hprev]
    simp +decide [hq]
  · intro hf hq hloaded hfind
    simp only [handleDetailCellEdit, hord, if_neg hno, hf, hprev]
    simp +decide [hq, hloaded, hfind]

/-- Witness for C7: the spec's invalid edit `qty := -1` on the loaded state
reverts with a warning and no network call. -/
theorem invalid_edit_no_network_witness :
    handleDetailCellEdit (Except.error "unused")
        { data := row1, field := "qty", newValue := some (some (-1)) }
        detailState0
      = { state := addToast ToastSeverity.warn "Количество"
            "Количество должно быть больше нуля."
            (applyDetailRowPatch row1.id row1 detailState0)
          optionsFetched := false
          pending := none } :=
  (invalid_edit_no_network (Except.error "unused")
      { data := row1, field := "qty", newValue := some (some (-1)) }
      detailState0 order5 row1 rfl (by decide) (by decide)).1 rfl (by decide)

/-- `recalcOrderTotal` rewrites the loaded header's total to the row sum. -/
lemma recalc_establishes (s : DetailState) (o : OrderHeadModel)
    (hord : s.order = some o) :
    (recalcOrderTotal s).order
        = some { o with totalPrice := some (detailsTotal s.details) }
    ∧ (recalcOrderTotal s).details = s.details := by
  simp [recalcOrderTotal, hord]

/-- **C10.** While an order is loaded, every application of a detail-row
patch that finds its row (optimistic apply, server-echo replacement, and
failure revert all go through `applyDetailRowPatch`) re-establishes the
invariant that the header's `totalPrice` equals the sum of the in-memory
rows' `rowSum` values, non-finite `rowSum`s contributing 0. -/
theorem patch_restores_total_invariant (rowId : JNum)
    (patch : OrderDetailRow) (s : DetailState) (o : OrderHeadModel)
    (idx : Nat) (hord : s.order = some o)
    (hfound : s.details.findIdx? (fun item => jeq item.id rowId) = some idx) :
    ∃ o2, (applyDetailRowPatch rowId patch s).order = some o2
      ∧ o2.totalPrice
          = some (detailsTotal (applyDetailRowPatch rowId patch s).details) := by
  have hkey : (applyDetailRowPatch rowId patch s).details
        = s.details.set idx patch
      ∧ (applyDetailRowPatch rowId patch s).order
        = some { o with
            totalPrice := some (detailsTotal (s.details.set idx patch)) } := by
    simp only [applyDetailRowPatch, hfound]
    cases hsel : s.selectedDetail with
    | none => simp [recalcOrderTotal, hord, hsel, detailsTotal]
    | some sel =>
        by_cases hj : jeq sel.id patch.id = true
        · simp [recalcOrderTotal, hord, hsel, hj, detailsTotal]
        · simp [recalcOrderTotal, hord, hsel, hj, detailsTotal]
  refine ⟨{ o with totalPrice := some (detailsTotal (s.details.set idx patch)) },
    hkey.2, ?_⟩
  rw [hkey.1]

/-- Witness for C10: patching `row1` re-derives `totalPrice` as the new row
sum. -/
theorem patch_restores_total_invariant_witness :
    ∃ o2, (applyDetailRowPatch (some 1)
            { row1 with qty := some 7, rowSum := some 70 }
            detailState0).order = some o2
      ∧ o2.totalPrice
          = some (detailsTotal (applyDetailRowPatch (some 1)
              { row1 with qty := some 7, rowSum := some 70 }
              detailState0).details) :=
  patch_restores_total_invariant (some 1)
    { row1 with qty := some 7, rowSum := some 70 }
    detailState0 order5 0 rfl (by decide)

/-- **C4.** The idempotent creation guard: while a creation is in flight no
further call issues a POST (they await the pending creation); the slot is
cleared once the creation settles, success or failure, so a later call can
retry; an uncreated order with a free slot issues exactly one POST; and in
the two-overlapping-callers trace exactly one POST is issued and both
callers observe the same server-assigned order header. -/
theorem creation_guard_spec :
    (∀ s : CreateState, s.creationPending = true →
        (ensureStart s).1.posts = s.posts
          ∧ (ensureStart s).2 ≠ StartResult.issued)
    ∧ (∀ (outcome : Except String (Option OrderHeadModel)) (s : CreateState),
        (createComplete outcome s).1.creationPending = false)
    ∧ (∀ (s : CreateState) (draft : OrderHeadModel),
        s.order = some draft → draft.id ≤ 0 → s.creationPending = false →
        (ensureStart s).2 = StartResult.issued
          ∧ (ensureStart s).1.posts = s.posts + 1)
    ∧ (∀ (s : CreateState) (draft n : OrderHeadModel),
        s.order = some draft → draft.id ≤ 0 → s.creationPending = false →
        0 < n.id →
        (twoCallersTrace s (Except.ok (some n))).1.posts = s.posts + 1
        ∧ (twoCallersTrace s (Except.ok (some n))).2.1 = StartResult.issued
        ∧ (twoCallersTrace s (Except.ok (some n))).2.2.1
            = StartResult.awaitPending
        ∧ (twoCallersTrace s (Except.ok (some n))).2.2.2.1 = true
        ∧ (twoCallersTrace s (Except.ok (some n))).2.2.2.2 = true
        ∧ (twoCallersTrace s (Except.ok (some n))).1.order = some n
        ∧ (twoCallersTrace s (Except.ok (some n))).1.creationPending
            = false) := by
  refine ⟨?_, ?_, ?_, ?_⟩
  · intro s h
    cases ho : s.order with
    | none => simp [ensureStart, ho]
    | some draft =>
        by_cases hd : 0 < draft.id
        · simp [ensureStart, ho, hd]
        · simp [ensureStart, ho, hd, h]
  · intro outcome s
    cases outcome with
    | ok raw =>
        cases raw with
        | none => simp [createComplete]
        | some normalized =>
            by_cases hid : normalized.id ≤ 0
            · simp [createComplete, hid]
            · simp [createComplete, hid]
    | error msg => simp [createComplete]
  · intro s draft h1 h2 h3
    simp [ensureStart, h1, not_lt.mpr h2, h3]
  · intro s draft n h1 h2 h3 h4
    simp [twoCallersTrace, ensureStart, createComplete, h1,
      not_lt.mpr h2, h3, not_le.mpr h4, h4]

/-- Witness for C4: a concrete uncreated draft, two overlapping callers and
a successful creation — one POST, both callers observe order id 7. -/
theorem creation_guard_spec_witness :
    (twoCallersTrace
        { order := some { id := 0, orderNumber := "N1", orderDate := none,
                          userId := none, usersName := "", totalPrice := none },
          creationPending := false, posts := 0 }
        (Except.ok (some { id := 7, orderNumber := "N1", orderDate := none,
                           userId := none, usersName := "",
                           totalPrice := some 0 }))).1.posts = 1
    ∧ (twoCallersTrace
        { order := some { id := 0, orderNumber := "N1", orderDate := none,
                          userId := none, usersName := "", totalPrice := none },
          creationPending := false, posts := 0 }
        (Except.ok (some { id := 7, orderNumber := "N1", orderDate := none,
                           userId := none, usersName := "",
                           totalPrice := some 0 }))).1.order
      = some { id := 7, orderNumber := "N1", orderDate := none,
               userId := none, usersName := "", totalPrice := some 0 } := by
  have h := (creation_guard_spec.2.2.2
    { order := some { id := 0, orderNumber := "N1", orderDate := none,
                      userId := none, usersName := "", totalPrice := none },
      creationPending := false, posts := 0 }
    { id := 0, orderNumber := "N1", orderDate := none, userId := none,
      usersName := "", totalPrice := none }
    { id := 7, orderNumber := "N1", orderDate := none, userId := none,
      usersName := "", totalPrice := some 0 }
    rfl (by decide) rfl (by decide))
  exact ⟨h.1, h.2.2.2.2.2.1⟩

end ShopClient
